import Mathlib

/-!
# GuardianEye — network-graph engine, shallow embedding

Shallow embedding of the force-directed network-graph subsystem of the
GuardianEye frontend, together with proofs of the specified properties.

Embedded source files:
* `src/frontend/src/api/adapters.ts` — `adaptGraphToNodes`, `mapNodeType`;
* `src/frontend/src/components/NetworkGraph.jsx` — `simulate` (repulsion,
  per-edge attraction, center gravity), the label drawn by `draw`;
* `src/frontend/src/pages/NetworkPage.tsx` — `simulate` (repulsion,
  per-connection attraction, gravity plus clamping), the label drawn by
  `draw`, and `handleCanvasClick` (hit-testing).

Modelling conventions:
* JavaScript numbers are modelled as `ℚ`; `Math.sqrt` is not rational, so
  every function that calls it takes a `sqrt : ℚ → ℚ` parameter, and theorems
  whose truth depends on square-root facts assume exactly the instances they
  need.  `ratSqrt` below is an executable model of `Math.sqrt` that is exact
  on the perfect-square inputs used by concrete witnesses.
* `Math.random`-based layout jitter makes node coordinates nondeterministic;
  the adapter therefore takes a `layout : ℕ → ℕ → ℚ × ℚ` oracle mapping
  (node index, total) to the seeded (x, y) position.  No claim concerns the
  numeric coordinates themselves.
* Optional JSON fields (`graph.nodes`, `graph.edges`) are `Option`; a
  possibly-undefined string field read through `||` is modelled as a `String`
  where `""` stands for both the empty string and `undefined` (the two behave
  identically under JavaScript `||`).
-/

/-- Model of `Math.sqrt` used by concrete witnesses: exact on rationals whose
numerator and denominator are perfect squares (`ratSqrt (25 : ℚ) = 5`,
`ratSqrt (1/4 : ℚ) = 1/2`), and a floor-style underapproximation elsewhere. -/
def ratSqrt (q : ℚ) : ℚ :=
  (Nat.sqrt q.num.toNat : ℚ) / (Nat.sqrt q.den : ℚ)

-- ── Backend payload shapes (client.ts `BackendGraphData`) ──

/-- One entry of `BackendGraphData.nodes`: `{ id, label, type }`
(`label = ""` models an absent/empty label). -/
structure BNode where
  id : String
  label : String
  type : String
  deriving DecidableEq, Repr

/-- One entry of `BackendGraphData.edges`: `{ from, to }` (the `label` field
is never read by the embedded code). `from` is a Lean keyword, hence
`efrom`/`eto`. -/
structure BEdge where
  efrom : String
  eto : String
  deriving DecidableEq, Repr

/-- Shape of `BackendGraphData` with `nodes`/`edges` optional, so that an absent field
(`graph.nodes || []`) is representable. -/
structure BackendGraphData where
  nodes : Option (List BNode)
  edges : Option (List BEdge)
  deriving DecidableEq, Repr

-- ── Frontend node model (mockData `NetworkNode`) ──

/-- The `type` union `"phone" | "url" | "company" | "report"`. -/
inductive NodeType where
  | phone | url | company | report
  deriving DecidableEq, Repr

/-- Port of `NetworkNode` from `mockData.ts`: the shape produced by
`adaptGraphToNodes` and consumed by `NetworkPage.tsx`. -/
structure NetworkNode where
  id : String
  label : String
  type : NodeType
  x : ℚ
  y : ℚ
  vx : ℚ
  vy : ℚ
  connections : List String
  deriving DecidableEq, Repr

-- ── adapters.ts : adaptGraphToNodes ──

/-- Port of `mapNodeType` from adapters.ts, clause by clause. -/
def mapNodeType (type : String) : NodeType :=
  if type = "phone_number" ∨ type = "PhoneNumber" then .phone
  else if type = "url" ∨ type = "URL" ∨ type = "email_address" ∨ type = "EmailAddress" then .url
  else if type = "company_name" ∨ type = "CompanyImpersonated" then .company
  else .report

/-- The `edgeMap` built by the first loop of `adaptGraphToNodes`, read at key
`x`: every edge pushes `edge.to` onto `edgeMap[edge.from]` and `edge.from`
onto `edgeMap[edge.to]`, unconditionally, in edge order.  No check that
either endpoint names an existing node is performed. -/
def buildEdgeMap : List BEdge → String → List String
  | [], _ => []
  | e :: es, x =>
      ((if e.efrom = x then [e.eto] else []) ++ (if e.eto = x then [e.efrom] else []))
        ++ buildEdgeMap es x

/-- Model of `[...new Set(xs)]`: deduplicate keeping the first occurrence of each
element, preserving order. -/
def setDedup (xs : List String) : List String :=
  xs.foldl (fun acc x => if x ∈ acc then acc else acc ++ [x]) []

/-- Port of `adaptGraphToNodes` from adapters.ts.  The circular-seed-plus-jitter
coordinates (`Math.cos`/`Math.sin`/`Math.random`) are delegated to the
`layout` oracle applied to `(i, total)`, with
`total = (graph.nodes || []).length || 1` exactly as in the source; all other
fields are ported directly. -/
def adaptGraphToNodes (layout : ℕ → ℕ → ℚ × ℚ) (graph : BackendGraphData) :
    List NetworkNode :=
  let ns := graph.nodes.getD []
  let em := buildEdgeMap (graph.edges.getD [])
  let total := if ns.length = 0 then 1 else ns.length
  ns.enum.map (fun p =>
    { id := p.2.id
      label := if p.2.label = "" then p.2.id else p.2.label
      type := mapNodeType p.2.type
      x := (layout p.1 total).1
      y := (layout p.1 total).2
      vx := 0
      vy := 0
      connections := setDedup (em p.2.id) })

/-- Layout oracle used by concrete witnesses (coordinates are irrelevant to
every adapter-level claim). -/
def zeroLayout : ℕ → ℕ → ℚ × ℚ := fun _ _ => (0, 0)

-- ── NetworkGraph.jsx : simulate ──

/-- A node as mutated by `NetworkGraph.jsx`'s `simulate`: the backend node
spread together with `x`, `y`, `vx`, `vy` (only `id` and the kinematic fields
are read by the simulation). -/
structure SimNode where
  id : String
  x : ℚ
  y : ℚ
  vx : ℚ
  vy : ℚ
  deriving DecidableEq, Repr

/-- Model of `Math.max(Math.sqrt(dx*dx + dy*dy), 1)` — the distance used by
`NetworkGraph.jsx`'s `simulate`, floored at 1. -/
def distNG (sqrt : ℚ → ℚ) (dx dy : ℚ) : ℚ :=
  max (sqrt (dx * dx + dy * dy)) 1

/-- Model of `Math.sqrt(dx*dx + dy*dy) || 1` — the distance used by
`NetworkPage.tsx`'s `simulate` and the only zero guard there: `|| 1` replaces
a zero (or NaN) result by 1 but leaves any value in (0, 1) unchanged. -/
def distNP (sqrt : ℚ → ℚ) (dx dy : ℚ) : ℚ :=
  let s := sqrt (dx * dx + dy * dy)
  if s = 0 then 1 else s

/-- The repulsion force scalar of `NetworkGraph.jsx`: `1500 / (dist * dist)`
with `dist = distNG`. -/
def repelForceNG (sqrt : ℚ → ℚ) (dx dy : ℚ) : ℚ :=
  1500 / (distNG sqrt dx dy * distNG sqrt dx dy)

/-- The repulsion force scalar of `NetworkPage.tsx`: `800 / (dist * dist)`
with `dist = distNP`. -/
def repelForceNP (sqrt : ℚ → ℚ) (dx dy : ℚ) : ℚ :=
  800 / (distNP sqrt dx dy * distNP sqrt dx dy)

/-- One iteration of the nested repulsion loop of `NetworkGraph.jsx` for the
pair `(i, j)`: reads `nodes[i]`, `nodes[j]`, then applies the four velocity
updates.  (The loop only calls it with `i < j < nodes.length`; out-of-range
indices leave the state unchanged.) -/
def repulsePairNG (sqrt : ℚ → ℚ) (nodes : List SimNode) (i j : ℕ) : List SimNode :=
  match nodes.get? i, nodes.get? j with
  | some a, some b =>
      let dx := b.x - a.x
      let dy := b.y - a.y
      let dist := distNG sqrt dx dy
      let force := 1500 / (dist * dist)
      let fx := (dx / dist) * force
      let fy := (dy / dist) * force
      (nodes.set i { a with vx := a.vx - fx, vy := a.vy - fy }).set j
        { b with vx := b.vx + fx, vy := b.vy + fy }
  | _, _ => nodes

/-- The repulsion phase of `NetworkGraph.jsx`:
`for (i = 0; i < n; i++) for (j = i+1; j < n; j++)`. -/
def repulseStepNG (sqrt : ℚ → ℚ) (nodes : List SimNode) : List SimNode :=
  (List.range nodes.length).foldl
    (fun ns i =>
      (List.range' (i + 1) (nodes.length - (i + 1))).foldl
        (fun ns2 j => repulsePairNG sqrt ns2 i j) ns)
    nodes

/-- Index of the node that `nodeMap[id]` resolves to: `nodes.forEach(n =>
nodeMap[n.id] = n)` overwrites earlier entries, so the LAST node with a given
id wins. -/
def lastIdxOf (nodes : List SimNode) (id : String) : Option ℕ :=
  match nodes with
  | [] => none
  | n :: rest =>
      match lastIdxOf rest id with
      | some k => some (k + 1)
      | none => if n.id = id then some 0 else none

/-- The mutation statement pair `n.vx += fx; n.vy += fy` applied to the node
at index `i` (no-op on an out-of-range index, which the call sites never
produce). -/
def addVel (nodes : List SimNode) (i : ℕ) (fx fy : ℚ) : List SimNode :=
  match nodes.get? i with
  | some n => nodes.set i { n with vx := n.vx + fx, vy := n.vy + fy }
  | none => nodes

/-- One iteration of the attraction loop of `NetworkGraph.jsx` for a single
edge: resolve both endpoints through `nodeMap` (`continue` when either is
absent), compute the spring force from the current positions, then apply
`a.vx += fx; a.vy += fy; b.vx -= fx; b.vy -= fy` in statement order.  The two
`addVel`s are sequential so that a self-loop (where `a` and `b` alias the
same object in the source) is mutated cumulatively, as in JavaScript. -/
def attractEdgeNG (sqrt : ℚ → ℚ) (nodes : List SimNode) (e : BEdge) : List SimNode :=
  match lastIdxOf nodes e.efrom, lastIdxOf nodes e.eto with
  | some ia, some ib =>
      match nodes.get? ia, nodes.get? ib with
      | some a, some b =>
          let dx := b.x - a.x
          let dy := b.y - a.y
          let dist := distNG sqrt dx dy
          let force := (dist - 120) * 0.01
          let fx := (dx / dist) * force
          let fy := (dy / dist) * force
          addVel (addVel nodes ia fx fy) ib (-fx) (-fy)
      | _, _ => nodes
  | _, _ => nodes

/-- The attraction phase of `NetworkGraph.jsx`: `for (const edge of edges)`. -/
def attractStepNG (sqrt : ℚ → ℚ) (nodes : List SimNode) (edges : List BEdge) :
    List SimNode :=
  edges.foldl (attractEdgeNG sqrt) nodes

/-- The center-gravity / damping / integration phase of `NetworkGraph.jsx`
(per node, damping 0.85, no clamping). -/
def gravityStepNG (nodes : List SimNode) : List SimNode :=
  nodes.map (fun n =>
    let vx1 := (n.vx + (400 - n.x) * 0.001) * 0.85
    let vy1 := (n.vy + (300 - n.y) * 0.001) * 0.85
    { n with vx := vx1, vy := vy1, x := n.x + vx1, y := n.y + vy1 })

/-- One full tick of `NetworkGraph.jsx`'s `simulate`, including the
`if (!nodes.length) return` guard. -/
def simulateNG (sqrt : ℚ → ℚ) (nodes : List SimNode) (edges : List BEdge) :
    List SimNode :=
  if nodes.length = 0 then nodes
  else gravityStepNG (attractStepNG sqrt (repulseStepNG sqrt nodes) edges)

/-- Sum of the `vx` components of a `NetworkGraph.jsx` node list. -/
def totalVx (nodes : List SimNode) : ℚ :=
  (nodes.map SimNode.vx).sum

/-- Sum of the `vy` components of a `NetworkGraph.jsx` node list. -/
def totalVy (nodes : List SimNode) : ℚ :=
  (nodes.map SimNode.vy).sum

-- ── NetworkPage.tsx : simulate, draw label, handleCanvasClick ──

/-- One iteration of the nested repulsion loop of `NetworkPage.tsx` for the
pair `(i, j)` (constant 800, `|| 1` zero guard, otherwise the same four
velocity updates as `NetworkGraph.jsx`). -/
def repulsePairNP (sqrt : ℚ → ℚ) (nodes : List NetworkNode) (i j : ℕ) :
    List NetworkNode :=
  match nodes.get? i, nodes.get? j with
  | some a, some b =>
      let dx := b.x - a.x
      let dy := b.y - a.y
      let dist := distNP sqrt dx dy
      let force := 800 / (dist * dist)
      let fx := (dx / dist) * force
      let fy := (dy / dist) * force
      (nodes.set i { a with vx := a.vx - fx, vy := a.vy - fy }).set j
        { b with vx := b.vx + fx, vy := b.vy + fy }
  | _, _ => nodes

/-- The repulsion phase of `NetworkPage.tsx`'s `simulate`. -/
def repulseStepNP (sqrt : ℚ → ℚ) (nodes : List NetworkNode) : List NetworkNode :=
  (List.range nodes.length).foldl
    (fun ns i =>
      (List.range' (i + 1) (nodes.length - (i + 1))).foldl
        (fun ns2 j => repulsePairNP sqrt ns2 i j) ns)
    nodes

/-- One iteration of the inner attraction loop of `NetworkPage.tsx` for a
single connection id of `node`: `next.find(n => n.id === connId)` (first
match), skip when absent, otherwise add the spring contribution to `node`'s
velocity.  Only the current node is mutated; targets are read for their
(position) fields, which the attraction phase never changes, so `next` is the
phase-entry list. -/
def attractConnNP (sqrt : ℚ → ℚ) (next : List NetworkNode) (node : NetworkNode)
    (connId : String) : NetworkNode :=
  match next.find? (fun m => m.id = connId) with
  | some target =>
      let dx := target.x - node.x
      let dy := target.y - node.y
      let dist := distNP sqrt dx dy
      let force := (dist - 120) * 0.005
      { node with vx := node.vx + (dx / dist) * force,
                  vy := node.vy + (dy / dist) * force }
  | none => node

/-- The attraction contributions of all of `node`'s connections, in order. -/
def attractNodeNP (sqrt : ℚ → ℚ) (next : List NetworkNode) (node : NetworkNode) :
    NetworkNode :=
  node.connections.foldl (attractConnNP sqrt next) node

/-- The attraction phase of `NetworkPage.tsx`'s `simulate`
(`next.forEach(node => node.connections.forEach(...))`). -/
def attractStepNP (sqrt : ℚ → ℚ) (next : List NetworkNode) : List NetworkNode :=
  next.map (attractNodeNP sqrt next)

/-- The center-gravity / damping / integration / clamping phase of
`NetworkPage.tsx` (damping 0.9, positions clamped to `[40,760] × [40,560]`). -/
def gravityStepNP (nodes : List NetworkNode) : List NetworkNode :=
  nodes.map (fun n =>
    let vx1 := (n.vx + (400 - n.x) * 0.001) * 0.9
    let vy1 := (n.vy + (300 - n.y) * 0.001) * 0.9
    { n with vx := vx1, vy := vy1,
             x := max 40 (min 760 (n.x + vx1)),
             y := max 40 (min 560 (n.y + vy1)) })

/-- One full tick of `NetworkPage.tsx`'s `simulate` (the `setNodes` callback
body, acting on the copied list). -/
def simulateNP (sqrt : ℚ → ℚ) (nodes : List NetworkNode) : List NetworkNode :=
  gravityStepNP (attractStepNP sqrt (repulseStepNP sqrt nodes))

/-- The label string drawn by `NetworkPage.tsx`'s `draw`:
`node.label.length > 20 ? node.label.substring(0, 18) + "..." : node.label`. -/
def drawLabelNP (label : String) : String :=
  if label.length > 20 then label.take 18 ++ "..." else label

/-- The label string drawn by `NetworkGraph.jsx`'s `draw`:
`(n.label || n.id || "").slice(0, 24)` — truncation without any ellipsis
(`""` models a falsy/absent field). -/
def drawLabelNG (label id : String) : String :=
  (if label = "" then (if id = "" then "" else id) else label).take 24

/-- Port of `handleCanvasClick` from `NetworkPage.tsx`, reduced to its node-resolution
result: `nodes.find(node => Math.sqrt(dx*dx + dy*dy) < 16)`, with
`setSelectedNode(clicked || null)` represented by the `Option`. -/
def handleCanvasClick (sqrt : ℚ → ℚ) (nodes : List NetworkNode) (x y : ℚ) :
    Option NetworkNode :=
  nodes.find? (fun node =>
    sqrt ((node.x - x) * (node.x - x) + (node.y - y) * (node.y - y)) < 16)

/-- Squared Euclidean distance of a node from a pointer coordinate, used to
state "Euclidean distance below r" (for `r ≥ 0`, `dist < r ↔ dist² < r²`)
without a square root. -/
def sqDistTo (node : NetworkNode) (x y : ℚ) : ℚ :=
  (node.x - x) * (node.x - x) + (node.y - y) * (node.y - y)

-- ── Helper lemmas ──

theorem setDedup_go_mem (l : List String) (acc : List String) (y : String) :
    y ∈ l.foldl (fun acc x => if x ∈ acc then acc else acc ++ [x]) acc ↔
      y ∈ acc ∨ y ∈ l := by
  induction l generalizing acc with
  | nil => simp
  | cons a l ih =>
    simp only [List.foldl_cons, ih]
    by_cases ha : a ∈ acc <;> simp [ha, List.mem_append] <;> aesop

theorem mem_setDedup (xs : List String) (y : String) :
    y ∈ setDedup xs ↔ y ∈ xs := by
  simpa [setDedup] using setDedup_go_mem xs [] y

theorem setDedup_go_nodup (l : List String) (acc : List String) (h : acc.Nodup) :
    (l.foldl (fun acc x => if x ∈ acc then acc else acc ++ [x]) acc).Nodup := by
  induction l generalizing acc with
  | nil => simpa
  | cons a l ih =>
    simp only [List.foldl_cons]
    by_cases ha : a ∈ acc
    · simpa [ha] using ih acc h
    · refine ih _ ?_
      simp only [ha, if_false]
      simpa [List.nodup_append] using ⟨h, ha⟩

theorem nodup_setDedup (xs : List String) : (setDedup xs).Nodup :=
  setDedup_go_nodup xs [] List.nodup_nil

theorem mem_buildEdgeMap (es : List BEdge) (x y : String) :
    y ∈ buildEdgeMap es x ↔
      ∃ e ∈ es, (e.efrom = x ∧ e.eto = y) ∨ (e.eto = x ∧ e.efrom = y) := by
  induction es with
  | nil => simp [buildEdgeMap]
  | cons e es ih =>
    by_cases h1 : e.efrom = x <;> by_cases h2 : e.eto = x <;>
      simp [buildEdgeMap, h1, h2, ih] <;> aesop

theorem adapt_connections (layout : ℕ → ℕ → ℚ × ℚ) (g : BackendGraphData)
    (node : NetworkNode) (h : node ∈ adaptGraphToNodes layout g) :
    node.connections = setDedup (buildEdgeMap (g.edges.getD []) node.id) := by
  unfold adaptGraphToNodes at h
  simp only [List.mem_map] at h
  obtain ⟨p, _, rfl⟩ := h
  rfl

theorem set_get_self {α : Type*} (l : List α) (i : ℕ) (a : α)
    (h : l.get? i = some a) : l.set i a = l := by
  induction l generalizing i with
  | nil => simp at h
  | cons c l ih =>
    cases i with
    | zero => simp at h; simp [h]
    | succ i => simp only [List.get?_cons_succ] at h; simp [List.set, ih i h]

theorem sum_map_set {α : Type*} (f : α → ℚ) (l : List α) (i : ℕ) (a b : α)
    (h : l.get? i = some b) :
    ((l.set i a).map f).sum = (l.map f).sum - f b + f a := by
  induction l generalizing i with
  | nil => simp at h
  | cons c l ih =>
    cases i with
    | zero => simp at h; subst h; simp [List.set]; ring
    | succ i =>
      simp only [List.get?_cons_succ] at h
      simp only [List.set, List.map_cons, List.sum_cons, ih i h]
      ring

theorem lastIdxOf_isValid (nodes : List SimNode) (id : String) (i : ℕ)
    (h : lastIdxOf nodes id = some i) : ∃ a, nodes.get? i = some a := by
  induction nodes generalizing i with
  | nil => simp [lastIdxOf] at h
  | cons n rest ih =>
    unfold lastIdxOf at h
    cases hr : lastIdxOf rest id with
    | some k =>
      rw [hr] at h
      cases h
      obtain ⟨a, ha⟩ := ih k hr
      exact ⟨a, by simpa using ha⟩
    | none =>
      rw [hr] at h
      by_cases hn : n.id = id
      · simp [hn] at h; cases h; exact ⟨n, rfl⟩
      · simp [hn] at h

theorem foldl_preserves {α β : Type*} (P : α → Prop) (g : α → β → α)
    (h : ∀ s x, P s → P (g s x)) :
    ∀ (l : List β) (s : α), P s → P (l.foldl g s) := by
  intro l
  induction l with
  | nil => intro s hs; simpa
  | cons x l ih => intro s hs; exact ih (g s x) (h s x hs)

theorem find?_first {α : Type*} (p : α → Bool) (l : List α) (a : α)
    (h : l.find? p = some a) :
    ∃ l1 l2, l = l1 ++ a :: l2 ∧ (∀ b ∈ l1, p b = false) ∧ p a = true := by
  induction l with
  | nil => simp at h
  | cons c l ih =>
    by_cases hc : p c
    · rw [List.find?_cons_of_pos _ hc] at h
      cases h
      exact ⟨[], l, rfl, by simp, hc⟩
    · rw [List.find?_cons_of_neg _ hc] at h
      obtain ⟨l1, l2, rfl, h1, h2⟩ := ih h
      exact ⟨c :: l1, l2, rfl, by simpa [hc] using h1, h2⟩

theorem totalVx_set (l : List SimNode) (i : ℕ) (a b : SimNode)
    (h : l.get? i = some b) : totalVx (l.set i a) = totalVx l - b.vx + a.vx :=
  sum_map_set SimNode.vx l i a b h

theorem totalVy_set (l : List SimNode) (i : ℕ) (a b : SimNode)
    (h : l.get? i = some b) : totalVy (l.set i a) = totalVy l - b.vy + a.vy :=
  sum_map_set SimNode.vy l i a b h

theorem totalV_repulsePairNG (sqrt : ℚ → ℚ) (l : List SimNode) (i j : ℕ) :
    totalVx (repulsePairNG sqrt l i j) = totalVx l ∧
      totalVy (repulsePairNG sqrt l i j) = totalVy l := by
  unfold repulsePairNG
  cases hi : l.get? i with
  | none => simp
  | some a =>
    cases hj : l.get? j with
    | none => simp
    | some b =>
      simp only
      by_cases hij : i = j
      · subst hij
        rw [hi] at hj
        injection hj with hj
        subst hj
        rw [List.set_set]
        constructor
        · rw [totalVx_set l i _ a hi]
          simp [sub_self]
        · rw [totalVy_set l i _ a hi]
          simp [sub_self]
      · have h1 : (l.set i { a with vx := a.vx - (b.x - a.x) / distNG sqrt (b.x - a.x) (b.y - a.y) * (1500 / (distNG sqrt (b.x - a.x) (b.y - a.y) * distNG sqrt (b.x - a.x) (b.y - a.y))), vy := a.vy - (b.y - a.y) / distNG sqrt (b.x - a.x) (b.y - a.y) * (1500 / (distNG sqrt (b.x - a.x) (b.y - a.y) * distNG sqrt (b.x - a.x) (b.y - a.y))) }).get? j = some b := by
          rw [List.get?_set_ne _ l hij]
          exact hj
        constructor
        · rw [totalVx_set _ j _ b h1, totalVx_set l i _ a hi]
          ring
        · rw [totalVy_set _ j _ b h1, totalVy_set l i _ a hi]
          ring

theorem length_addVel (l : List SimNode) (i : ℕ) (fx fy : ℚ) :
    (addVel l i fx fy).length = l.length := by
  unfold addVel
  cases h : l.get? i <;> simp

theorem totalVx_addVel (l : List SimNode) (i : ℕ) (fx fy : ℚ)
    (hi : i < l.length) : totalVx (addVel l i fx fy) = totalVx l + fx := by
  unfold addVel
  cases h : l.get? i with
  | none => rw [List.get?_eq_none] at h; omega
  | some n => rw [totalVx_set l i _ n h]; simp; ring

theorem totalVy_addVel (l : List SimNode) (i : ℕ) (fx fy : ℚ)
    (hi : i < l.length) : totalVy (addVel l i fx fy) = totalVy l + fy := by
  unfold addVel
  cases h : l.get? i with
  | none => rw [List.get?_eq_none] at h; omega
  | some n => rw [totalVy_set l i _ n h]; simp; ring

theorem addVel_zero (l : List SimNode) (i : ℕ) : addVel l i 0 0 = l := by
  unfold addVel
  cases h : l.get? i with
  | none => rfl
  | some n =>
    show l.set i { n with vx := n.vx + 0, vy := n.vy + 0 } = l
    have : { n with vx := n.vx + 0, vy := n.vy + 0 } = n := by
      cases n; simp
    rw [this, set_get_self l i n h]

theorem totalV_attractEdgeNG (sqrt : ℚ → ℚ) (l : List SimNode) (e : BEdge) :
    totalVx (attractEdgeNG sqrt l e) = totalVx l ∧
      totalVy (attractEdgeNG sqrt l e) = totalVy l := by
  unfold attractEdgeNG
  cases hfa : lastIdxOf l e.efrom with
  | none => simp
  | some ia =>
    cases hfb : lastIdxOf l e.eto with
    | none => simp
    | some ib =>
      cases hi : l[ia]? with
      | none => simp [hi]
      | some a =>
        cases hj : l[ib]? with
        | none => simp [hi, hj]
        | some b =>
          have hi2 : l.get? ia = some a := by simpa [List.get?_eq_getElem?] using hi
          have hj2 : l.get? ib = some b := by simpa [List.get?_eq_getElem?] using hj
          simp only [hi2, hj2]
          have hia : ia < l.length := (List.getElem?_eq_some.mp hi).1
          have hib : ib < l.length := (List.getElem?_eq_some.mp hj).1
          have hib' : ib < (addVel l ia ((b.x - a.x) / distNG sqrt (b.x - a.x) (b.y - a.y) * ((distNG sqrt (b.x - a.x) (b.y - a.y) - 120) * 0.01)) ((b.y - a.y) / distNG sqrt (b.x - a.x) (b.y - a.y) * ((distNG sqrt (b.x - a.x) (b.y - a.y) - 120) * 0.01))).length := by
            rw [length_addVel]; exact hib
          constructor
          · rw [totalVx_addVel _ ib _ _ hib', totalVx_addVel _ ia _ _ hia]; ring
          · rw [totalVy_addVel _ ib _ _ hib', totalVy_addVel _ ia _ _ hia]; ring

theorem totalV_repulseStepNG (sqrt : ℚ → ℚ) (nodes : List SimNode) :
    totalVx (repulseStepNG sqrt nodes) = totalVx nodes ∧
      totalVy (repulseStepNG sqrt nodes) = totalVy nodes := by
  unfold repulseStepNG
  refine foldl_preserves
    (fun s => totalVx s = totalVx nodes ∧ totalVy s = totalVy nodes) _ ?_ _ _ ⟨rfl, rfl⟩
  intro s i hs
  refine foldl_preserves
    (fun s => totalVx s = totalVx nodes ∧ totalVy s = totalVy nodes) _ ?_ _ _ hs
  intro s2 j hs2
  obtain ⟨h1, h2⟩ := totalV_repulsePairNG sqrt s2 i j
  exact ⟨h1.trans hs2.1, h2.trans hs2.2⟩

theorem totalV_attractStepNG (sqrt : ℚ → ℚ) (nodes : List SimNode)
    (edges : List BEdge) :
    totalVx (attractStepNG sqrt nodes edges) = totalVx nodes ∧
      totalVy (attractStepNG sqrt nodes edges) = totalVy nodes := by
  unfold attractStepNG
  refine foldl_preserves
    (fun s => totalVx s = totalVx nodes ∧ totalVy s = totalVy nodes) _ ?_ _ _ ⟨rfl, rfl⟩
  intro s e hs
  obtain ⟨h1, h2⟩ := totalV_attractEdgeNG sqrt s e
  exact ⟨h1.trans hs.1, h2.trans hs.2⟩

theorem attractEdgeNG_selfLoop (sqrt : ℚ → ℚ) (l : List SimNode) (e : BEdge)
    (h : e.efrom = e.eto) : attractEdgeNG sqrt l e = l := by
  unfold attractEdgeNG
  rw [h]
  cases hf : lastIdxOf l e.eto with
  | none => rfl
  | some ia =>
    cases hi : l[ia]? with
    | none =>
      have hi2 : l.get? ia = none := by simpa [List.get?_eq_getElem?] using hi
      simp [hi2, hi]
    | some a =>
      have hi2 : l.get? ia = some a := by simpa [List.get?_eq_getElem?] using hi
      simp [hi2, hi, sub_self, zero_div, zero_mul, neg_zero, addVel_zero]

theorem attractStepNG_selfLoop (sqrt : ℚ → ℚ) (nodes : List SimNode) (e : BEdge)
    (l1 l2 : List BEdge) (h : e.efrom = e.eto) :
    attractStepNG sqrt nodes (l1 ++ e :: l2) = attractStepNG sqrt nodes (l1 ++ l2) := by
  unfold attractStepNG
  rw [List.foldl_append, List.foldl_append, List.foldl_cons,
    attractEdgeNG_selfLoop sqrt _ e h]

theorem simulateNG_selfLoop (sqrt : ℚ → ℚ) (nodes : List SimNode) (e : BEdge)
    (l1 l2 : List BEdge) (h : e.efrom = e.eto) :
    simulateNG sqrt nodes (l1 ++ e :: l2) = simulateNG sqrt nodes (l1 ++ l2) := by
  unfold simulateNG
  by_cases hn : nodes.length = 0
  · simp [hn]
  · simp only [hn, if_false]
    rw [attractStepNG_selfLoop sqrt _ e l1 l2 h]

theorem attractConnNP_self (sqrt : ℚ → ℚ) (next : List NetworkNode)
    (node : NetworkNode)
    (h : next.find? (fun m => m.id = node.id) = some node) :
    attractConnNP sqrt next node node.id = node := by
  unfold attractConnNP
  rw [h]
  simp [sub_self, zero_div, zero_mul, add_zero]

-- ── Claim theorems ──

/-- C1 counterexample: the claim says an edge whose `from` id matches no node
is dropped, so for the payload with the single node `b` and the edge
`{from:"x", to:"b"}` the adapted `b.connections` would not contain `"x"`.
In fact `adaptGraphToNodes` registers every edge in `edgeMap` without checking
that its endpoints exist, and the adapted `b.connections` is exactly `["x"]`
even though no node has id `"x"` (the only node id is `"b"` ≠ `"x"`). -/
theorem C1_counterexample :
    adaptGraphToNodes zeroLayout ⟨some [⟨"b", "b", "url"⟩], some [⟨"x", "b"⟩]⟩ =
      [⟨"b", "b", NodeType.url, 0, 0, 0, 0, ["x"]⟩] ∧ ("x" : String) ≠ "b" :=
  ⟨by decide, by decide⟩

/-- C1 (amended): `adaptGraphToNodes` does not drop edges with unknown
endpoints.  A node's `connections` contains exactly the opposite endpoints of
the edges incident to its id — whether or not those opposite ids name an
existing node in the payload. -/
theorem C1_amended_connections (layout : ℕ → ℕ → ℚ × ℚ) (g : BackendGraphData)
    (node : NetworkNode) (h : node ∈ adaptGraphToNodes layout g) (y : String) :
    y ∈ node.connections ↔
      ∃ e ∈ g.edges.getD [],
        (e.efrom = node.id ∧ e.eto = y) ∨ (e.eto = node.id ∧ e.efrom = y) := by
  rw [adapt_connections layout g node h, mem_setDedup, mem_buildEdgeMap]

/-- Witness for C1 (amended) at the counterexample payload: `"x"` is in the
adapted `b.connections` because the edge `{from:"x", to:"b"}` is incident to
`"b"`. -/
theorem C1_amended_witness :
    ("x" : String) ∈ (⟨"b", "b", NodeType.url, 0, 0, 0, 0, ["x"]⟩ : NetworkNode).connections ↔
      ∃ e ∈ (⟨some [⟨"b", "b", "url"⟩], some [⟨"x", "b"⟩]⟩ : BackendGraphData).edges.getD [],
        (e.efrom = "b" ∧ e.eto = "x") ∨ (e.eto = "b" ∧ e.efrom = "x") :=
  C1_amended_connections zeroLayout ⟨some [⟨"b", "b", "url"⟩], some [⟨"x", "b"⟩]⟩
    ⟨"b", "b", NodeType.url, 0, 0, 0, 0, ["x"]⟩ (by decide) "x"

/-- C2 counterexample: the claim says a duplicate node id keeps only the
first occurrence, so a payload with two entries of id `"a"` would adapt to a
single node labelled `"first"`.  In fact `adaptGraphToNodes` performs no
deduplication: both entries survive, in order, each with its own label. -/
theorem C2_counterexample :
    adaptGraphToNodes zeroLayout
        ⟨some [⟨"a", "first", "url"⟩, ⟨"a", "second", "url"⟩], some []⟩ =
      [⟨"a", "first", NodeType.url, 0, 0, 0, 0, []⟩,
        ⟨"a", "second", NodeType.url, 0, 0, 0, 0, []⟩] := by
  decide

/-- C2 (amended): `adaptGraphToNodes` emits exactly one output node per input
entry (duplicates included), in input order: the output length equals the
input length and the i-th output node's `id`, `label` (`label || id`) and
mapped `type` come from the i-th input entry. -/
theorem C2_amended_no_dedup (layout : ℕ → ℕ → ℚ × ℚ) (g : BackendGraphData)
    (i : ℕ) :
    (adaptGraphToNodes layout g).length = (g.nodes.getD []).length ∧
    ((adaptGraphToNodes layout g).get? i).map NetworkNode.id =
      ((g.nodes.getD []).get? i).map BNode.id ∧
    ((adaptGraphToNodes layout g).get? i).map NetworkNode.label =
      ((g.nodes.getD []).get? i).map (fun n => if n.label = "" then n.id else n.label) ∧
    ((adaptGraphToNodes layout g).get? i).map NetworkNode.type =
      ((g.nodes.getD []).get? i).map (fun n => mapNodeType n.type) := by
  unfold adaptGraphToNodes
  refine ⟨by simp, ?_, ?_, ?_⟩ <;>
    · rw [List.get?_map, List.get?_enum]
      cases (g.nodes.getD []).get? i <;> simp

/-- C4: adjacency symmetry and deduplication for adapter-produced graphs —
for any two output nodes `a`, `b`, `b.id ∈ a.connections ↔ a.id ∈
b.connections`, and each `connections` list is duplicate-free even when the
payload repeats an edge. -/
theorem C4_symmetry_nodup (layout : ℕ → ℕ → ℚ × ℚ) (g : BackendGraphData)
    (a b : NetworkNode) (ha : a ∈ adaptGraphToNodes layout g)
    (hb : b ∈ adaptGraphToNodes layout g) :
    (b.id ∈ a.connections ↔ a.id ∈ b.connections) ∧ a.connections.Nodup := by
  constructor
  · rw [adapt_connections layout g a ha, adapt_connections layout g b hb,
      mem_setDedup, mem_setDedup, mem_buildEdgeMap, mem_buildEdgeMap]
    constructor <;> (rintro ⟨e, he, h⟩; exact ⟨e, he, h.symm.imp And.symm And.symm⟩)
  · rw [adapt_connections layout g a ha]
    exact nodup_setDedup _

/-- Witness for C4 at the two-node payload `a — b` (duplicated edge): the
adapted nodes have symmetric, duplicate-free connections. -/
theorem C4_witness :
    (((⟨"b", "b", NodeType.url, 0, 0, 0, 0, ["a"]⟩ : NetworkNode).id ∈
        (⟨"a", "a", NodeType.url, 0, 0, 0, 0, ["b"]⟩ : NetworkNode).connections ↔
      (⟨"a", "a", NodeType.url, 0, 0, 0, 0, ["b"]⟩ : NetworkNode).id ∈
        (⟨"b", "b", NodeType.url, 0, 0, 0, 0, ["a"]⟩ : NetworkNode).connections) ∧
      (⟨"a", "a", NodeType.url, 0, 0, 0, 0, ["b"]⟩ : NetworkNode).connections.Nodup) :=
  C4_symmetry_nodup zeroLayout
    ⟨some [⟨"a", "a", "url"⟩, ⟨"b", "b", "url"⟩], some [⟨"a", "b"⟩, ⟨"a", "b"⟩]⟩
    ⟨"a", "a", NodeType.url, 0, 0, 0, 0, ["b"]⟩
    ⟨"b", "b", NodeType.url, 0, 0, 0, 0, ["a"]⟩ (by decide) (by decide)

/-- C9: a payload whose `nodes` field is absent or empty adapts to the empty
node list (the adapter is total — nothing is thrown), and an absent `edges`
field yields empty `connections` on every adapted node. -/
theorem C9_missing_fields (layout : ℕ → ℕ → ℚ × ℚ) :
    (∀ es, adaptGraphToNodes layout ⟨none, es⟩ = [] ∧
      adaptGraphToNodes layout ⟨some [], es⟩ = []) ∧
    (∀ bn node, node ∈ adaptGraphToNodes layout ⟨bn, none⟩ →
      node.connections = []) := by
  constructor
  · intro es
    exact ⟨rfl, rfl⟩
  · intro bn node h
    rw [adapt_connections layout _ node h]
    rfl

/-- Witness for C9: at a one-node payload with absent `edges`, the adapted
node's `connections` is empty (and the absent-`nodes` cases evaluate to `[]`). -/
theorem C9_witness :
    (adaptGraphToNodes zeroLayout ⟨none, some [⟨"x", "y"⟩]⟩ = [] ∧
      adaptGraphToNodes zeroLayout ⟨some [], some [⟨"x", "y"⟩]⟩ = []) ∧
    (⟨"a", "a", NodeType.url, 0, 0, 0, 0, []⟩ : NetworkNode).connections = [] :=
  ⟨(C9_missing_fields zeroLayout).1 (some [⟨"x", "y"⟩]),
    (C9_missing_fields zeroLayout).2 (some [⟨"a", "a", "url"⟩])
      ⟨"a", "a", NodeType.url, 0, 0, 0, 0, []⟩ (by decide)⟩

/-- C5 counterexample: the claim says the repulsion distance is floored at 1
so the force never exceeds `K_rep`.  In `NetworkPage.tsx` the guard is
`Math.sqrt(...) || 1`, which only replaces an exactly-zero distance: for two
nodes half a unit apart the distance used is ½, the force is
`800 / ½² = 3200`, and the velocity increment applied to each node of the
pair has magnitude 3200 > 800 = `K_rep`. -/
theorem C5_counterexample :
    repulseStepNP ratSqrt
        [⟨"a", "a", NodeType.url, 0, 0, 0, 0, []⟩,
          ⟨"b", "b", NodeType.url, 1/2, 0, 0, 0, []⟩] =
      [⟨"a", "a", NodeType.url, 0, 0, -3200, 0, []⟩,
        ⟨"b", "b", NodeType.url, 1/2, 0, 3200, 0, []⟩] ∧
      (3200 : ℚ) > 800 := by
  have hs : ratSqrt (1/4 : ℚ) = 1/2 := by norm_num [ratSqrt]
  refine ⟨?_, by norm_num⟩
  norm_num [repulseStepNP, List.range_succ, List.range_zero, List.range',
    repulsePairNP, distNP, hs]

/-- C5 (amended): only `NetworkGraph.jsx` floors the repulsion distance at 1
(`Math.max(√, 1)`), which bounds its force `1500 / d²` by `K_rep = 1500`;
`NetworkPage.tsx` uses `√ || 1`, which leaves every non-zero square-root
value — including values below 1 — unchanged, so its force `800 / d²` is not
bounded by 800. -/
theorem C5_amended_guards :
    (∀ (sqrt : ℚ → ℚ) (dx dy : ℚ),
        1 ≤ distNG sqrt dx dy ∧ repelForceNG sqrt dx dy ≤ 1500) ∧
    (∀ (sqrt : ℚ → ℚ) (dx dy : ℚ),
        sqrt (dx * dx + dy * dy) ≠ 0 →
          distNP sqrt dx dy = sqrt (dx * dx + dy * dy)) := by
  constructor
  · intro sqrt dx dy
    have hd : 1 ≤ distNG sqrt dx dy := le_max_right _ _
    refine ⟨hd, ?_⟩
    unfold repelForceNG
    have hdd : 1 ≤ distNG sqrt dx dy * distNG sqrt dx dy := by nlinarith
    exact div_le_self (by norm_num) hdd
  · intro sqrt dx dy h
    unfold distNP
    simp [h]

/-- Witness for C5 (amended): concrete evaluations of both guards, with the
non-zero hypothesis discharged at `dx = ½`, `dy = 0`. -/
theorem C5_amended_witness :
    (1 ≤ distNG ratSqrt 3 4 ∧ repelForceNG ratSqrt 3 4 ≤ 1500) ∧
      distNP ratSqrt (1/2) 0 = ratSqrt (1/2 * (1/2) + 0 * 0) :=
  ⟨C5_amended_guards.1 ratSqrt 3 4,
    C5_amended_guards.2 ratSqrt (1/2) 0 (by norm_num [ratSqrt])⟩

set_option maxRecDepth 10000 in
/-- C6 counterexample: the claim says every rendered label gets an ellipsis
suffix exactly when truncated, and a length-30 label renders as its first 18
characters plus an ellipsis.  The `NetworkGraph.jsx` renderer instead draws
`(label || id || "").slice(0, 24)`: a 30-character label renders as its first
24 characters with no ellipsis, which differs from first-18-plus-ellipsis. -/
theorem C6_counterexample :
    ("abcdefghijklmnopqrstuvwxyz0123" : String).length = 30 ∧
    drawLabelNG "abcdefghijklmnopqrstuvwxyz0123" "n1" = "abcdefghijklmnopqrstuvwx" ∧
    drawLabelNG "abcdefghijklmnopqrstuvwxyz0123" "n1" ≠
      ("abcdefghijklmnopqrstuvwxyz0123" : String).take 18 ++ "..." :=
  ⟨by decide, by decide, by decide⟩

/-- C6 (amended): the two renderers truncate differently.  `NetworkPage.tsx`
draws the label unchanged when its length is at most 20 and otherwise its
first 18 characters with an `"..."` suffix; `NetworkGraph.jsx` draws the
first 24 characters of `label || id` with no ellipsis. -/
theorem C6_amended_truncation :
    (∀ s : String, s.length ≤ 20 → drawLabelNP s = s) ∧
    (∀ s : String, 20 < s.length → drawLabelNP s = s.take 18 ++ "...") ∧
    (∀ s id : String, s ≠ "" → drawLabelNG s id = s.take 24) := by
  refine ⟨?_, ?_, ?_⟩
  · intro s h
    unfold drawLabelNP
    rw [if_neg (by omega)]
  · intro s h
    unfold drawLabelNP
    rw [if_pos h]
  · intro s id h
    unfold drawLabelNG
    rw [if_neg h]

set_option maxRecDepth 10000 in
/-- Witness for C6 (amended): a short label is unchanged, a 30-character
label renders as first-18-plus-ellipsis in `NetworkPage.tsx` and as its first
24 characters in `NetworkGraph.jsx`. -/
theorem C6_amended_witness :
    drawLabelNP "hello" = "hello" ∧
    drawLabelNP "abcdefghijklmnopqrstuvwxyz0123" =
      ("abcdefghijklmnopqrstuvwxyz0123" : String).take 18 ++ "..." ∧
    drawLabelNG "abcdefghijklmnopqrstuvwxyz0123" "n1" =
      ("abcdefghijklmnopqrstuvwxyz0123" : String).take 24 :=
  ⟨C6_amended_truncation.1 "hello" (by decide),
    C6_amended_truncation.2.1 "abcdefghijklmnopqrstuvwxyz0123" (by decide),
    C6_amended_truncation.2.2 "abcdefghijklmnopqrstuvwxyz0123" "n1" (by decide)⟩

/-- C7: `handleCanvasClick` resolves the pointer to the first node in list
order whose Euclidean distance from the pointer is strictly below the fixed
pick radius 16 (for a correct square root this is exactly "squared distance
below 256"), every node earlier in the list being at distance ≥ 16; when no
node is within the radius the result is `none` and the selection is cleared. -/
theorem C7_hit_test (sqrt : ℚ → ℚ) (nodes : List NetworkNode) (x y : ℚ)
    (hsqrt : ∀ n ∈ nodes, (sqrt (sqDistTo n x y) < 16 ↔ sqDistTo n x y < 256)) :
    (handleCanvasClick sqrt nodes x y = none ↔
      ∀ n ∈ nodes, ¬ sqDistTo n x y < 256) ∧
    (∀ node, handleCanvasClick sqrt nodes x y = some node →
      sqDistTo node x y < 256 ∧
        ∃ l1 l2, nodes = l1 ++ node :: l2 ∧ ∀ m ∈ l1, ¬ sqDistTo m x y < 256) := by
  constructor
  · unfold handleCanvasClick
    rw [List.find?_eq_none]
    constructor
    · intro h n hn hlt
      have hb := h n hn
      simp only [decide_eq_true_eq] at hb
      exact hb ((hsqrt n hn).mpr hlt)
    · intro h n hn
      simp only [decide_eq_true_eq]
      intro hlt
      exact h n hn ((hsqrt n hn).mp hlt)
  · intro node h
    unfold handleCanvasClick at h
    obtain ⟨l1, l2, hsplit, hl1, hp⟩ := find?_first _ _ _ h
    have hmem : node ∈ nodes := by
      rw [hsplit]
      exact List.mem_append.mpr (Or.inr (List.mem_cons_self _ _))
    refine ⟨(hsqrt node hmem).mp (of_decide_eq_true hp), l1, l2, hsplit, ?_⟩
    intro m hm hlt
    have hmn : m ∈ nodes := by
      rw [hsplit]
      exact List.mem_append.mpr (Or.inl hm)
    exact of_decide_eq_false (hl1 m hm) ((hsqrt m hmn).mpr hlt)

/-- Witness for C7 at a concrete three-node list and pointer `(0,0)`: the far
node (squared distance 20000) is skipped, the node at `(3,4)` (distance 5)
is hit first even though the node at `(0,1)` also qualifies. -/
theorem C7_witness :
    (handleCanvasClick ratSqrt
        [⟨"far", "far", NodeType.url, 100, 100, 0, 0, []⟩,
          ⟨"b", "b", NodeType.url, 3, 4, 0, 0, []⟩,
          ⟨"c", "c", NodeType.url, 0, 1, 0, 0, []⟩] 0 0 = none ↔
      ∀ n ∈ [(⟨"far", "far", NodeType.url, 100, 100, 0, 0, []⟩ : NetworkNode),
          ⟨"b", "b", NodeType.url, 3, 4, 0, 0, []⟩,
          ⟨"c", "c", NodeType.url, 0, 1, 0, 0, []⟩], ¬ sqDistTo n 0 0 < 256) ∧
    (∀ node, handleCanvasClick ratSqrt
        [⟨"far", "far", NodeType.url, 100, 100, 0, 0, []⟩,
          ⟨"b", "b", NodeType.url, 3, 4, 0, 0, []⟩,
          ⟨"c", "c", NodeType.url, 0, 1, 0, 0, []⟩] 0 0 = some node →
      sqDistTo node 0 0 < 256 ∧
        ∃ l1 l2,
          [(⟨"far", "far", NodeType.url, 100, 100, 0, 0, []⟩ : NetworkNode),
            ⟨"b", "b", NodeType.url, 3, 4, 0, 0, []⟩,
            ⟨"c", "c", NodeType.url, 0, 1, 0, 0, []⟩] = l1 ++ node :: l2 ∧
            ∀ m ∈ l1, ¬ sqDistTo m 0 0 < 256) :=
  C7_hit_test ratSqrt
    [⟨"far", "far", NodeType.url, 100, 100, 0, 0, []⟩,
      ⟨"b", "b", NodeType.url, 3, 4, 0, 0, []⟩,
      ⟨"c", "c", NodeType.url, 0, 1, 0, 0, []⟩] 0 0
    (by
      intro n hn
      fin_cases hn <;> norm_num [sqDistTo, ratSqrt, Nat.le_sqrt, Nat.sqrt_lt])

/-- C8: a self-loop edge is inert in the attraction phase.  In
`NetworkGraph.jsx` a full `simulate` tick on an edge list containing a
self-loop (`from == to`) produces exactly the same node states as the tick
with that edge removed (its displacement is zero, so the spring contribution
to both velocity components is zero).  In `NetworkPage.tsx` the corresponding
situation is a node whose `connections` contains its own id: processing that
connection returns the node unchanged whenever the id lookup resolves to the
node itself. -/
theorem C8_self_loop_inert :
    (∀ (sqrt : ℚ → ℚ) (nodes : List SimNode) (e : BEdge) (l1 l2 : List BEdge),
        e.efrom = e.eto →
          simulateNG sqrt nodes (l1 ++ e :: l2) = simulateNG sqrt nodes (l1 ++ l2)) ∧
    (∀ (sqrt : ℚ → ℚ) (next : List NetworkNode) (node : NetworkNode),
        next.find? (fun m => m.id = node.id) = some node →
          attractConnNP sqrt next node node.id = node) :=
  ⟨fun sqrt nodes e l1 l2 h => simulateNG_selfLoop sqrt nodes e l1 l2 h,
    fun sqrt next node h => attractConnNP_self sqrt next node h⟩

/-- Witness for C8: a one-node graph with the self-loop edge `a → a`
simulates identically with and without the edge, and processing the
self-connection of the corresponding `NetworkPage` node returns it unchanged. -/
theorem C8_witness :
    simulateNG ratSqrt [⟨"a", 0, 0, 0, 0⟩] ([] ++ ⟨"a", "a"⟩ :: []) =
      simulateNG ratSqrt [⟨"a", 0, 0, 0, 0⟩] ([] ++ []) ∧
    attractConnNP ratSqrt [⟨"a", "a", NodeType.url, 0, 0, 0, 0, ["a"]⟩]
        ⟨"a", "a", NodeType.url, 0, 0, 0, 0, ["a"]⟩
        (⟨"a", "a", NodeType.url, 0, 0, 0, 0, ["a"]⟩ : NetworkNode).id =
      ⟨"a", "a", NodeType.url, 0, 0, 0, 0, ["a"]⟩ :=
  ⟨C8_self_loop_inert.1 ratSqrt [⟨"a", 0, 0, 0, 0⟩] ⟨"a", "a"⟩ [] [] rfl,
    C8_self_loop_inert.2 ratSqrt [⟨"a", "a", NodeType.url, 0, 0, 0, 0, ["a"]⟩]
      ⟨"a", "a", NodeType.url, 0, 0, 0, 0, ["a"]⟩ (by decide)⟩

/-- C10: in `NetworkGraph.jsx`'s `simulate`, the repulsion phase followed by
the attraction phase preserves the sum of all node velocities in each
component — every pairwise repulsion and every edge's attraction applies
equal and opposite increments to its two nodes — so only the center-gravity
and damping phase changes the totals. -/
theorem C10_velocity_sum (sqrt : ℚ → ℚ) (nodes : List SimNode)
    (edges : List BEdge) :
    totalVx (attractStepNG sqrt (repulseStepNG sqrt nodes) edges) = totalVx nodes ∧
      totalVy (attractStepNG sqrt (repulseStepNG sqrt nodes) edges) = totalVy nodes := by
  obtain ⟨hx1, hy1⟩ := totalV_repulseStepNG sqrt nodes
  obtain ⟨hx2, hy2⟩ := totalV_attractStepNG sqrt (repulseStepNG sqrt nodes) edges
  exact ⟨hx2.trans hx1, hy2.trans hy1⟩
